import Mathlib

/-!
Verification development for the wrenpp binding layer (Wren++.h / Wren++.cpp).
The C++ source is shallowly embedded: the process-wide type-identity registry
becomes explicit state passing, the foreign-object wrappers become an inductive
type recording destructor events, the VM slot array becomes a function from
slot indices to modelled slot values, and the heap reached through the
registered reallocate function becomes an explicit allocation map.  Fallible
operations (slot reads with type preconditions, file loading) return Option or
Except.  Machine doubles are modelled as exact rationals; the numeric theorems
carry the exact-representability hypotheses under which that model agrees with
IEEE double conversion.
-/

namespace Wrenpp

/-! ## Type identity registry (Wren++.h, `detail::typeId` / `getTypeIdImpl` /
`getTypeId`)

`typeId()` is a process-wide counter; `getTypeIdImpl<T>` has a function-local
static `id = typeId()++`, i.e. on the first call for `T` it captures the
current counter and increments it, and on every later call it returns the
cached value.  We embed the pair (counter, per-type cache) as `TypeIdState`;
the cache is an association list in first-assignment order.  A distinct C++
type (after `std::decay`) is identified by a `Nat` key. -/

structure TypeIdState where
  counter : Nat
  assigned : List (Nat × Nat)
  deriving Repr, DecidableEq

/-- The initial state of the registry: counter 0, nothing assigned. -/
def initTypeIdState : TypeIdState := ⟨0, []⟩

/-- Embeds `getTypeIdImpl<T>`: return the cached id for the (decayed) type key, or
assign the current counter value and post-increment it. -/
def getTypeIdImpl (key : Nat) (s : TypeIdState) : Nat × TypeIdState :=
  match s.assigned.lookup key with
  | some id => (id, s)
  | none => (s.counter, ⟨s.counter + 1, s.assigned ++ [(key, s.counter)]⟩)

/-- A C++ type expression as passed to `getTypeId<T>`: a base type key,
possibly wrapped in reference or const qualifiers. -/
inductive CppType where
  | base (key : Nat)
  | lref (t : CppType)
  | rref (t : CppType)
  | constq (t : CppType)
  deriving Repr, DecidableEq

/-- Embeds `std::decay_t` as used by `getTypeId`: strip references and cv-qualifiers
down to the underlying base type key. -/
def decayKey : CppType → Nat
  | .base k => k
  | .lref t => decayKey t
  | .rref t => decayKey t
  | .constq t => decayKey t

/-- Embeds `getTypeId<T>` = `getTypeIdImpl<std::decay_t<T>>`. -/
def getTypeId (t : CppType) (s : TypeIdState) : Nat × TypeIdState :=
  getTypeIdImpl (decayKey t) s

/-- First use of each of a list of type keys in order, threading the registry
state; returns the list of assigned ids. -/
def registerTypes : List Nat → TypeIdState → List Nat × TypeIdState
  | [], s => ([], s)
  | k :: ks, s =>
    let (id, s') := getTypeIdImpl k s
    let (ids, s'') := registerTypes ks s'
    (id :: ids, s'')

/-! ## Foreign object model (Wren++.h, `detail::ForeignObject`,
`ForeignObjectValue<T>`, `ForeignObjectPtr<T>`, `detail::finalize<T>`)

`ForeignObject` is an abstract base with virtual `objectPtr()` and `typeId()`
and a virtual destructor.  `ForeignObjectValue<T>` embeds the `T` object in
its own `_data` storage; its destructor runs `obj->~T()` on that storage.
`ForeignObjectPtr<T>` stores a raw `T*`; its destructor is defaulted and does
not touch the pointee.  We erase `T` down to its TypeId (`tid`, the value the
virtual `typeId()` returns) and model object addresses as `Nat`.  Destructor
activity is recorded as a list of `DtorEvent`s: C++ executes `T::~T` at an
address exactly when the corresponding event is emitted. -/

/-- An invocation of `T::~T` on the native object living at address `ptr`,
where `tid` is the TypeId of `T`. -/
structure DtorEvent where
  tid : Nat
  ptr : Nat
  deriving Repr, DecidableEq

/-- The type-erased wrapper actually stored in a foreign slot: either a
`ForeignObjectValue<T>` (the object lives at `dataAddr`, the address of the
embedded `_data` member) or a `ForeignObjectPtr<T>` (the wrapper stores the
raw pointer `object`). -/
inductive ForeignObject where
  | value (tid : Nat) (dataAddr : Nat)
  | ptr (tid : Nat) (object : Nat)
  deriving Repr, DecidableEq

/-- Virtual `objectPtr()`: address of the embedded storage for the value
wrapper, the stored raw pointer for the pointer wrapper. -/
def ForeignObject.objectPtr : ForeignObject → Nat
  | .value _ dataAddr => dataAddr
  | .ptr _ object => object

/-- Virtual `typeId()`: both wrappers return `getTypeId<T>()` of their
wrapped type, erased here to the stored `tid`. -/
def ForeignObject.typeIdOf : ForeignObject → Nat
  | .value tid _ => tid
  | .ptr tid _ => tid

/-- The virtual destructor `~ForeignObject()` as overridden by the two
wrappers: `~ForeignObjectValue` runs `obj->~T()` on `objectPtr()`;
`~ForeignObjectPtr` is defaulted and destroys nothing. -/
def ForeignObject.dtor : ForeignObject → List DtorEvent
  | .value tid dataAddr => [⟨tid, dataAddr⟩]
  | .ptr _ _ => []

/-- Embeds `detail::finalize<T>(bytes)`: cast the reclaimed foreign bytes to
`ForeignObject*` and invoke the virtual destructor. -/
def finalize (bytes : ForeignObject) : List DtorEvent :=
  bytes.dtor

/-! ## Slot values and the slot marshalling layer (Wren++.h, `WrenSlotAPI`)

A VM slot holds one runtime value; `wrenGetSlotType` reports its tag.  The
runtime's numeric slot holds a C double; we model it as an exact rational,
which agrees with IEEE double arithmetic on every value the theorems below
quantify over (integers of magnitude at most `2^53`, and values that were
stored by the corresponding `set`).  The slot array is a function from slot
index to value, and the typed reads are partial (`Option`): `none` models the
C API's precondition violation of reading a slot at the wrong type. -/

/-- The `WrenType` enum of wren.h, as reported by `wrenGetSlotType`. -/
inductive WrenType where
  | boolT
  | numT
  | foreignT
  | listT
  | mapT
  | nullT
  | stringT
  | unknownT
  deriving Repr, DecidableEq

/-- A modelled slot value.  Opaque `WrenHandle*` values are erased to `Nat`
ids; a slot written through `wrenSetSlotHandle` holds the handle's wrapped
value, whose runtime tag the embedding does not track, hence `handleV`
reports `unknownT`. -/
inductive SlotValue where
  | nullV
  | boolV (b : Bool)
  | numV (q : ℚ)
  | strV (s : String)
  | foreignV (obj : ForeignObject)
  | handleV (h : Nat)
  deriving Repr, DecidableEq

/-- Embeds `wrenGetSlotType`. -/
def wrenGetSlotType : SlotValue → WrenType
  | .nullV => .nullT
  | .boolV _ => .boolT
  | .numV _ => .numT
  | .strV _ => .stringT
  | .foreignV _ => .foreignT
  | .handleV _ => .unknownT

/-- The VM's slot array. -/
def Slots := Nat → SlotValue

/-- Write one slot (the effect of the `wrenSetSlot...` calls). -/
def setSlot (slots : Slots) (i : Nat) (v : SlotValue) : Slots :=
  fun j => if j = i then v else slots j

/-- Embeds `wrenGetSlotForeign`: the slot must hold a foreign object. -/
def wrenGetSlotForeign (slots : Slots) (i : Nat) : Option ForeignObject :=
  match slots i with
  | .foreignV obj => some obj
  | _ => none

/-- Embeds `wrenGetSlotBool`. -/
def wrenGetSlotBool (slots : Slots) (i : Nat) : Option Bool :=
  match slots i with
  | .boolV b => some b
  | _ => none

/-- Embeds `wrenGetSlotDouble`. -/
def wrenGetSlotDouble (slots : Slots) (i : Nat) : Option ℚ :=
  match slots i with
  | .numV q => some q
  | _ => none

/-- Embeds `wrenGetSlotString`. -/
def wrenGetSlotString (slots : Slots) (i : Nat) : Option String :=
  match slots i with
  | .strV s => some s
  | _ => none

/-- Embeds `wrenGetSlotHandle`. -/
def wrenGetSlotHandle (slots : Slots) (i : Nat) : Option Nat :=
  match slots i with
  | .handleV h => some h
  | _ => none

/-- Truncation toward zero of a rational, the behaviour of the C++
double-to-integer conversions `int(d)`, `long(d)`, ... (`Int.tdiv` is
T-division). -/
def doubleToInt (q : ℚ) : Int :=
  Int.tdiv q.num (q.den : Int)

/-- Embeds `WrenSlotAPI<T>::get` for the foreign-object shapes — the primary
template (by value), `WrenSlotAPI<T&>`, `WrenSlotAPI<const T&>`,
`WrenSlotAPI<T*>` and `WrenSlotAPI<const T*>` all have the same body:
read the wrapper with `wrenGetSlotForeign`, `assert` that its `typeId()`
equals `getTypeId<T>()`, and return `objectPtr()` (dereferenced for the
value/reference shapes; both outcomes are the same native object, which the
embedding identifies by its address).  The failed `assert` is modelled as
`none`: a fatal trap, no value is produced. -/
def WrenSlotAPI.getForeign (expectedTid : Nat) (slots : Slots) (i : Nat) : Option Nat :=
  match wrenGetSlotForeign slots i with
  | some obj => if obj.typeIdOf = expectedTid then some obj.objectPtr else none
  | none => none

/-- The public helper `wrenpp::getSlotForeign<T>` (Wren++.h:1072): read the
wrapper and return `objectPtr()` cast to `T*`.  Note: no `typeId()` check. -/
def getSlotForeign (slots : Slots) (i : Nat) : Option Nat :=
  (wrenGetSlotForeign slots i).map ForeignObject.objectPtr

/-! `WrenSlotAPI` specialisations for the primitive types.  Each `set` widens
to the numeric slot representation where applicable; each `get` reads the
slot and narrows.  `unsigned` values are 32-bit (`< 2^32`), `int` values are
32-bit signed; for both, the conversion to double is always exact, so the
rational model is faithful.  For `long`/`size_t` (64-bit) the conversion to
double is exact only for magnitudes at most `2^53`; the embedding stores the
exact value and the round-trip theorem carries that bound as a hypothesis. -/

/-- Embeds `WrenSlotAPI<bool>::set` = `wrenSetSlotBool`. -/
def WrenSlotAPI.setBool (slots : Slots) (i : Nat) (val : Bool) : Slots :=
  setSlot slots i (.boolV val)

/-- Embeds `WrenSlotAPI<bool>::get` = `wrenGetSlotBool`. -/
def WrenSlotAPI.getBool (slots : Slots) (i : Nat) : Option Bool :=
  wrenGetSlotBool slots i

/-- Embeds `WrenSlotAPI<double>::set` = `wrenSetSlotDouble`. -/
def WrenSlotAPI.setDouble (slots : Slots) (i : Nat) (val : ℚ) : Slots :=
  setSlot slots i (.numV val)

/-- Embeds `WrenSlotAPI<double>::get` = `wrenGetSlotDouble`. -/
def WrenSlotAPI.getDouble (slots : Slots) (i : Nat) : Option ℚ :=
  wrenGetSlotDouble slots i

/-- Embeds `WrenSlotAPI<float>::set`: `wrenSetSlotDouble(vm, slot, double(val))`;
float-to-double conversion is exact. -/
def WrenSlotAPI.setFloat (slots : Slots) (i : Nat) (val : ℚ) : Slots :=
  setSlot slots i (.numV val)

/-- Embeds `WrenSlotAPI<float>::get`: `float(wrenGetSlotDouble(vm, slot))`; the
narrowing is exact whenever the double is a float value, in particular after
`setFloat`. -/
def WrenSlotAPI.getFloat (slots : Slots) (i : Nat) : Option ℚ :=
  wrenGetSlotDouble slots i

/-- Embeds `WrenSlotAPI<int>::set`: `wrenSetSlotDouble(vm, slot, double(val))`. -/
def WrenSlotAPI.setInt (slots : Slots) (i : Nat) (val : Int) : Slots :=
  setSlot slots i (.numV (val : ℚ))

/-- Embeds `WrenSlotAPI<int>::get`: `int(wrenGetSlotDouble(vm, slot))`. -/
def WrenSlotAPI.getInt (slots : Slots) (i : Nat) : Option Int :=
  (wrenGetSlotDouble slots i).map doubleToInt

/-- Embeds `WrenSlotAPI<unsigned>::set`: `wrenSetSlotDouble(vm, slot, double(val))`. -/
def WrenSlotAPI.setUnsigned (slots : Slots) (i : Nat) (val : Nat) : Slots :=
  setSlot slots i (.numV (val : ℚ))

/-- Embeds `WrenSlotAPI<unsigned>::get`: `unsigned(wrenGetSlotDouble(vm, slot))`. -/
def WrenSlotAPI.getUnsigned (slots : Slots) (i : Nat) : Option Nat :=
  (wrenGetSlotDouble slots i).map (fun q => (doubleToInt q).toNat)

/-- Embeds `WrenSlotAPI<long>::set` (and the `size_t` partial specialisation, which
has the same body with `size_t` values modelled as nonnegative): the value is
converted to double; exact for `|val| ≤ 2^53`, which the round-trip theorem
assumes. -/
def WrenSlotAPI.setLong (slots : Slots) (i : Nat) (val : Int) : Slots :=
  setSlot slots i (.numV (val : ℚ))

/-- Embeds `WrenSlotAPI<long>::get`: `long(wrenGetSlotDouble(vm, slot))`. -/
def WrenSlotAPI.getLong (slots : Slots) (i : Nat) : Option Int :=
  (wrenGetSlotDouble slots i).map doubleToInt

/-- Embeds `WrenSlotAPI<const char*>::set` / `WrenSlotAPI<std::string>::set` =
`wrenSetSlotString` (the `std::string` overload passes `str.c_str()`). -/
def WrenSlotAPI.setString (slots : Slots) (i : Nat) (val : String) : Slots :=
  setSlot slots i (.strV val)

/-- Embeds `WrenSlotAPI<const char*>::get` / `WrenSlotAPI<std::string>::get` =
`wrenGetSlotString` (the `std::string` variant copies into a `std::string`,
same string value). -/
def WrenSlotAPI.getString (slots : Slots) (i : Nat) : Option String :=
  wrenGetSlotString slots i

/-- Embeds `WrenSlotAPI<WrenHandle*>::set` = `wrenSetSlotHandle`. -/
def WrenSlotAPI.setHandle (slots : Slots) (i : Nat) (val : Nat) : Slots :=
  setSlot slots i (.handleV val)

/-- Embeds `WrenSlotAPI<WrenHandle*>::get` = `wrenGetSlotHandle`. -/
def WrenSlotAPI.getHandle (slots : Slots) (i : Nat) : Option Nat :=
  wrenGetSlotHandle slots i

/-! ## Signature dispatch registry (Wren++.h `hashMethodSignature` /
`hashClassSignature`, Wren++.cpp `BoundState`, `registerFunction`,
`registerClass`, `foreignMethodProvider`, `foreignClassProvider`)

`std::hash<std::string>` is an external library function; the embedding takes
it as a parameter `hash : String → Nat`.  The `BoundState` maps are
`std::unordered_map`s; their `insert` member inserts only when the key is not
already present (it never overwrites), which `mapInsert` reproduces.  Native
function pointers (`WrenForeignMethodFn`) are erased to `Nat` identifiers. -/

/-- Embeds `detail::hashMethodSignature`: hash of
`module ++ className ++ signature ++ ("s" when static)`. -/
def hashMethodSignature (hash : String → Nat) (module className : String)
    (isStatic : Bool) (signature : String) : Nat :=
  hash (module ++ className ++ signature ++ (if isStatic then "s" else ""))

/-- Embeds `detail::hashClassSignature`: hash of `module ++ className`. -/
def hashClassSignature (hash : String → Nat) (module className : String) : Nat :=
  hash (module ++ className)

/-- Embeds `std::unordered_map::insert(make_pair(k, v))`: no effect when `k` is
already present. -/
def mapInsert {A : Type} (m : List (Nat × A)) (k : Nat) (v : A) : List (Nat × A) :=
  if (m.lookup k).isSome then m else (k, v) :: m

/-- The allocate/finalize pair stored per foreign class
(`WrenForeignClassMethods`), function pointers erased to ids. -/
structure ClassMethods where
  allocateFn : Nat
  finalizeFn : Nat
  deriving Repr, DecidableEq

/-- The per-VM `BoundState` stored in the VM's user data. -/
structure BoundState where
  methods : List (Nat × Nat)
  classes : List (Nat × ClassMethods)
  deriving Repr, DecidableEq

/-- A freshly constructed `BoundState` (VM construction). -/
def BoundState.empty : BoundState := ⟨[], []⟩

/-- Embeds `detail::registerFunction`: hash the method signature and `insert` the
adapter into the methods map. -/
def registerFunction (hash : String → Nat) (bs : BoundState)
    (mod clss : String) (isStatic : Bool) (sig : String) (function : Nat) : BoundState :=
  { bs with
    methods := mapInsert bs.methods (hashMethodSignature hash mod clss isStatic sig) function }

/-- Embeds `detail::registerClass`: hash the class signature and `insert` the
allocate/finalize pair into the classes map. -/
def registerClass (hash : String → Nat) (bs : BoundState)
    (mod clss : String) (methods : ClassMethods) : BoundState :=
  { bs with classes := mapInsert bs.classes (hashClassSignature hash mod clss) methods }

/-- Embeds `foreignMethodProvider`: look the hashed signature up in the methods map;
a miss returns the null adapter (`none`). -/
def foreignMethodProvider (hash : String → Nat) (bs : BoundState)
    (module className : String) (isStatic : Bool) (signature : String) : Option Nat :=
  bs.methods.lookup (hashMethodSignature hash module className isStatic signature)

/-- Embeds `foreignClassProvider`: look the hashed class signature up; a miss
returns the null allocate/finalize pair (`none`). -/
def foreignClassProvider (hash : String → Nat) (bs : BoundState)
    (module className : String) : Option ClassMethods :=
  bs.classes.lookup (hashClassSignature hash module className)

/-! ## The heap behind `VM::reallocateFn` (default `std::realloc`)

`Value` allocates its string copy through `VM::reallocateFn(nullptr, n)` and
frees it through `VM::reallocateFn(ptr, 0)`.  The heap is a map from block
address to contents; addresses start at 1 (0 is the null pointer).  Freeing
an address that is not currently allocated is undefined behaviour (a double
free); `reallocFree` reports it as a `false` flag. -/

structure Heap where
  next : Nat
  blocks : List (Nat × String)
  deriving Repr, DecidableEq

/-- The heap before any allocation. -/
def Heap.empty : Heap := ⟨1, []⟩

/-- Embeds `reallocateFn(nullptr, n)` with the block then filled by `strcpy`:
allocate a fresh block holding `s`. -/
def reallocAlloc (h : Heap) (s : String) : Nat × Heap :=
  (h.next, ⟨h.next + 1, (h.next, s) :: h.blocks⟩)

/-- Embeds `reallocateFn(ptr, 0)`: free the block.  The flag is `true` when `ptr`
was currently allocated; `false` models the undefined behaviour of freeing a
pointer that is not a live allocation. -/
def reallocFree (h : Heap) (p : Nat) : Heap × Bool :=
  if (h.blocks.lookup p).isSome then
    ({ h with blocks := h.blocks.filter (fun b => b.fst ≠ p) }, true)
  else
    (h, false)

/-! ## `wrenpp::Value` (Wren++.h:756, Wren++.cpp:102)

Fields: `_type` (default `WREN_TYPE_NULL`), `_string` (default `nullptr`),
and the 8-byte `_storage` written by `memcpy` in `set<T>`; `_storage` is
modelled by the typed payload the constructor copied in.  The copy
constructor is `= default`: a field-wise copy, so for a string `Value` the
copy holds the same `_string` pointer.  The destructor frees `_string`
through `VM::reallocateFn` when it is non-null. -/

/-- The typed contents of `Value::_storage`. -/
inductive ValueStorage where
  | empty
  | boolS (b : Bool)
  | floatS (q : ℚ)
  | doubleS (q : ℚ)
  | intS (v : Int)
  | uintS (v : Nat)
  | foreignS (obj : ForeignObject)
  deriving Repr, DecidableEq

structure Value where
  type : WrenType := .nullT
  str : Option Nat := none
  storage : ValueStorage := .empty
  deriving Repr, DecidableEq

/-- Embeds `Value()` — and the global `wrenpp::null`, which is `Value()`. -/
def Value.nullValue : Value := {}

/-- Embeds `Value(bool)`. -/
def Value.ofBool (b : Bool) : Value := ⟨.boolT, none, .boolS b⟩

/-- Embeds `Value(float)`. -/
def Value.ofFloat (q : ℚ) : Value := ⟨.numT, none, .floatS q⟩

/-- Embeds `Value(double)`. -/
def Value.ofDouble (q : ℚ) : Value := ⟨.numT, none, .doubleS q⟩

/-- Embeds `Value(int)`. -/
def Value.ofInt (v : Int) : Value := ⟨.numT, none, .intS v⟩

/-- Embeds `Value(unsigned int)`. -/
def Value.ofUnsigned (v : Nat) : Value := ⟨.numT, none, .uintS v⟩

/-- Embeds `Value(const char*)`: allocate `strlen + 1` bytes through
`VM::reallocateFn(nullptr, ·)` and `strcpy` the characters in — the `Value`
owns a fresh heap copy of the string. -/
def Value.ofString (h : Heap) (s : String) : Value × Heap :=
  let (p, h') := reallocAlloc h s
  (⟨.stringT, some p, .empty⟩, h')

/-- Embeds `Value(T*)` for the pointer returned by `wrenGetSlotForeign`: tag
`WREN_TYPE_FOREIGN`, the pointer to the wrapper bytes `memcpy`d into
`_storage` (the pointed-to wrapper stands in for the pointer). -/
def Value.ofForeign (obj : ForeignObject) : Value := ⟨.foreignT, none, .foreignS obj⟩

/-- Embeds `Value(const Value&) = default`: a field-wise (shallow) copy; the
`_string` pointer is copied, not the characters. -/
def Value.copy (v : Value) : Value := v

/-- Embeds `~Value()`: when `_string` is non-null, pass it to
`VM::reallocateFn(_string, 0)`.  The flag reports whether that free hit a
live allocation (`false` = double free / undefined behaviour). -/
def Value.dtor (v : Value) (h : Heap) : Heap × Bool :=
  match v.str with
  | some p => reallocFree h p
  | none => (h, true)

/-! ## `wrenpp::Method` (Wren++.h:789, Wren++.cpp:155)

A `Method` holds `_vm`, `_method` and `_variable` (all null in a
default-constructed or moved-from object).  `VM*` and `WrenHandle*` values
are erased to `Nat` ids.  Destruction releases both handles exactly when
`_vm` is non-null; the move operations null the source's fields.

`wrenReleaseHandle` calls are recorded as the released handle ids. -/

structure Method where
  _vm : Option Nat := none
  _method : Option Nat := none
  _variable : Option Nat := none
  deriving Repr, DecidableEq

/-- Embeds `Method(VM*, WrenHandle* variable, WrenHandle* method)` as produced by
`VM::method`: all three fields set. -/
def Method.mk3 (vm methodH variableH : Nat) : Method :=
  ⟨some vm, some methodH, some variableH⟩

/-- Embeds `Method(Method&&)`: steal the fields, null the source. -/
def Method.moveCtor (other : Method) : Method × Method :=
  (⟨other._vm, other._method, other._variable⟩, ⟨none, none, none⟩)

/-- Embeds `Method::operator=(Method&&)`: unless self-assignment, overwrite this
object's fields with the source's and null the source.  Note: the previous
fields of the destination are dropped without any release.  The first
component is the new destination, the second the new source. -/
def Method.moveAssign (this rhs : Method) (selfAssign : Bool) : Method × Method :=
  if selfAssign then (this, rhs)
  else (⟨rhs._vm, rhs._method, rhs._variable⟩, ⟨none, none, none⟩)

/-- Embeds `~Method()`: when `_vm` is non-null, release `_method` then `_variable`
(`assert(_method && _variable)`; `getD 0` is unreachable under that
assertion).  Returns the released handle ids. -/
def Method.dtor (m : Method) : List Nat :=
  match m._vm with
  | some _ => [m._method.getD 0, m._variable.getD 0]
  | none => []

/-! ## `Method::operator()` (Wren++.h:979)

The argument pack is marshalled through `WrenSlotAPI<Arg>::set`, one slot
value per argument; `MarshalArg` is the tagged union of what those `set`
specialisations store (numeric arguments all land in the numeric slot,
foreign reference/pointer/value arguments land as a foreign wrapper via
`ForeignObject{Value,Ptr}<T>::setInSlot`).  `wrenCall` is the external script
runtime; the embedding takes its behaviour as a parameter `callFn`. -/

inductive WrenInterpretResult where
  | success
  | compileError
  | runtimeError
  deriving Repr, DecidableEq

/-- What `WrenSlotAPI<Arg>::set` writes for one argument of
`Method::operator()`. -/
inductive MarshalArg where
  | boolA (b : Bool)
  | numA (q : ℚ)
  | strA (s : String)
  | handleA (h : Nat)
  | foreignA (obj : ForeignObject)
  deriving Repr, DecidableEq

/-- The slot value an argument is marshalled to. -/
def encodeArg : MarshalArg → SlotValue
  | .boolA b => .boolV b
  | .numA q => .numV q
  | .strA s => .strV s
  | .handleA h => .handleV h
  | .foreignA obj => .foreignV obj

/-- The VM state visible through the slot API: the slot array and how many
slots `wrenEnsureSlots` has guaranteed. -/
structure CallVM where
  slots : Slots
  ensuredSlots : Nat

/-- Embeds `detail::passArgumentsToWren`: write argument `i` (0-based) into slot
`i + firstSlot` via its `WrenSlotAPI` specialisation. -/
def passArgsFrom (slots : Slots) (firstSlot : Nat) : List MarshalArg → Slots
  | [] => slots
  | a :: rest => passArgsFrom (setSlot slots firstSlot (encodeArg a)) (firstSlot + 1) rest

/-- Embeds `passArgumentsToWren` proper: arguments start at slot 1. -/
def passArgumentsToWren (slots : Slots) (args : List MarshalArg) : Slots :=
  passArgsFrom slots 1 args

/-- The state of the VM just before `wrenCall`: `wrenEnsureSlots(vm,
Arity + 1)`, `wrenSetSlotHandle(vm, 0, _variable)`, then the arguments. -/
def methodPreCall (variableH : Nat) (args : List MarshalArg) (vm : CallVM) : CallVM :=
  { slots := passArgumentsToWren (setSlot vm.slots 0 (.handleV variableH)) args
    ensuredSlots := max vm.ensuredSlots (args.length + 1) }

/-- Embeds `Method::operator()`: marshal, `wrenCall(_method)`, and on
`WREN_RESULT_SUCCESS` box slot 0 according to `wrenGetSlotType`; the switch
boxes bool/num/string/foreign slot types, while every other type falls
through (`assert("Invalid Wren type")` is a non-null string literal, hence
no trap) to `return null`, as does any non-success result.  The heap is
threaded for the string case, whose `Value(const char*)` allocates. -/
def methodInvoke (callFn : CallVM → Nat → WrenInterpretResult × CallVM)
    (variableH methodH : Nat) (args : List MarshalArg) (vm : CallVM) (h : Heap) :
    Value × CallVM × Heap :=
  let vm2 := methodPreCall variableH args vm
  let (result, vm3) := callFn vm2 methodH
  if result = .success then
    match vm3.slots 0 with
    | .boolV b => (Value.ofBool b, vm3, h)
    | .numV q => (Value.ofDouble q, vm3, h)
    | .strV s =>
      let (v, h') := Value.ofString h s
      (v, vm3, h')
    | .foreignV obj => (Value.ofForeign obj, vm3, h)
    | _ => (Value.nullValue, vm3, h)
  else
    (Value.nullValue, vm3, h)

/-! ## Module loading (Wren++.h `fileExists` / `fileToString`,
Wren++.cpp `VM::loadModuleFn`, `VM::executeModule`, `VM::executeString`)

The file system is a map from path to contents.  `fileToString` throws
`std::runtime_error` when the file does not exist, modelled in `Except`; the
terminating `'\0'` it appends and the `malloc`/`memcpy` into the returned
C-string buffer are representation details absorbed by the Lean `String`.
The default `loadModuleFn` catches every `std::exception` from
`fileToString` and returns the null buffer (`none`). -/

/-- The external file system. -/
def FileSystem := String → Option String

/-- Embeds `detail::fileExists` (via `stat`). -/
def fileExists (fs : FileSystem) (file : String) : Bool :=
  (fs file).isSome

/-- Embeds `detail::fileToString`: throw when the file does not exist, otherwise
read the whole file. -/
def fileToString (fs : FileSystem) (file : String) : Except String String :=
  if fileExists fs file then .ok ((fs file).getD "")
  else .error "file not found!"

/-- The body of the default `VM::loadModuleFn` in the exception monad:
append `".wren"`, try `fileToString`, catch any `std::exception` and return
the null buffer.  An `Except.error` result would model an exception escaping
to the caller. -/
def loadModuleBody (fs : FileSystem) (mod : String) : Except String (Option String) :=
  match fileToString fs (mod ++ ".wren") with
  | .ok source => .ok (some source)
  | .error _ => .ok none

/-- The default `VM::loadModuleFn` as its caller sees it: the returned
buffer, null on failure. -/
def loadModuleFn (fs : FileSystem) (mod : String) : Option String :=
  match loadModuleBody fs mod with
  | .ok r => r
  | .error _ => none

/-- The `wrenpp::Result` enum. -/
inductive Result where
  | success
  | compileError
  | runtimeError
  deriving Repr, DecidableEq

/-- The result mapping shared by `executeModule` and `executeString`:
`WREN_RESULT_COMPILE_ERROR ↦ CompileError`, `WREN_RESULT_RUNTIME_ERROR ↦
RuntimeError`, otherwise `Success`. -/
def interpretResultToResult : WrenInterpretResult → Result
  | .compileError => .compileError
  | .runtimeError => .runtimeError
  | .success => .success

/-- Embeds `VM::executeModule`: `std::string source(loadModuleFn(mod.c_str()))` and
then `wrenInterpret`.  When the loader returns the null buffer, the
`std::string` constructor dereferences a null pointer — undefined behaviour
before any interpretation; that path is the `none` result, which never
reaches the `Success`/`CompileError`/`RuntimeError` mapping.  The script
interpreter is the external parameter `interp` (module name, source). -/
def executeModule (interp : String → String → WrenInterpretResult)
    (fs : FileSystem) (mod : String) : Option Result :=
  match loadModuleFn fs mod with
  | none => none
  | some source => some (interpretResultToResult (interp mod source))

/-- Embeds `VM::executeString`. -/
def executeString (interp : String → String → WrenInterpretResult)
    (module str : String) : Result :=
  interpretResultToResult (interp module str)

/-! ## Ownership traces over Method objects

`Method` is move-only, so a program manipulates a family of `Method` objects
through exactly these operations: construction with fresh handles
(`VM::method` creates the variable handle with `wrenGetSlotHandle` and the
call handle with `wrenMakeCallHandle`, both fresh), move construction, move
assignment and destruction.  A trace state holds the constructed `Method`
objects (`none` once destroyed), a fresh-handle counter, and the
`wrenReleaseHandle` calls made so far, in order. -/

inductive MethodOp where
  | create (vmId : Nat)
  | moveCreate (src : Nat)
  | moveAssign (dst src : Nat)
  | destroy (idx : Nat)
  deriving Repr, DecidableEq

structure MethodTraceState where
  methods : List (Option Method)
  nextHandle : Nat
  released : List Nat
  deriving Repr, DecidableEq

/-- No `Method` constructed yet, no handle created, nothing released. -/
def initMethodTraceState : MethodTraceState := ⟨[], 0, []⟩

/-- One step.  `create` appends a `Method` built from two fresh handles
(as `VM::method` does); `moveCreate` move-constructs a new `Method` from the
one at `src`; `moveAssign` move-assigns (`dst = src` is C++ self-assignment,
a no-op); `destroy` runs the destructor and records its
`wrenReleaseHandle` calls.  An operation naming a destroyed or absent
object is undefined behaviour in C++ and left as a no-op here. -/
def execMethodOp (s : MethodTraceState) : MethodOp → MethodTraceState
  | .create vmId =>
    { methods := s.methods ++ [some (Method.mk3 vmId s.nextHandle (s.nextHandle + 1))]
      nextHandle := s.nextHandle + 2
      released := s.released }
  | .moveCreate src =>
    match s.methods[src]? with
    | some (some m) =>
      let (m', cleared) := Method.moveCtor m
      { s with methods := (s.methods.set src (some cleared)) ++ [some m'] }
    | _ => s
  | .moveAssign dst src =>
    if dst = src then s
    else
      match s.methods[dst]?, s.methods[src]? with
      | some (some d), some (some r) =>
        let (d', r') := Method.moveAssign d r false
        { s with methods := (s.methods.set dst (some d')).set src (some r') }
      | _, _ => s
  | .destroy idx =>
    match s.methods[idx]? with
    | some (some m) =>
      { s with methods := s.methods.set idx none, released := s.released ++ m.dtor }
    | _ => s

/-- Run a whole trace. -/
def execMethodOps (s : MethodTraceState) : List MethodOp → MethodTraceState
  | [] => s
  | op :: ops => execMethodOps (execMethodOp s op) ops

/-- Whether this (live or destroyed) object currently owns no handles: its
destructor would release nothing. -/
def notOwning (om : Option Method) : Bool :=
  match om with
  | some m => m._vm.isNone
  | none => true

/-- A move assignment whose destination still owns handles drops them
without releasing them; `goodOpB` rules exactly those steps out. -/
def goodOpB (s : MethodTraceState) : MethodOp → Bool
  | .moveAssign dst src => dst == src || notOwning (s.methods.getD dst none)
  | _ => true

/-- Every step of the trace is good, step by step. -/
def goodOpsB (s : MethodTraceState) : List MethodOp → Bool
  | [] => true
  | op :: ops => goodOpB s op && goodOpsB (execMethodOp s op) ops

/-- Whether the object at hand owns handle `h`: it is live, `_vm` is
non-null, and `h` is one of its two handles (exactly what its destructor
would release). -/
def ownsHandle (h : Nat) (om : Option Method) : Bool :=
  match om with
  | some m => m._vm.isSome && (m._method == some h || m._variable == some h)
  | none => false

/-- How many live `Method` objects currently own handle `h`. -/
def ownerCount (s : MethodTraceState) (h : Nat) : Nat :=
  s.methods.countP (ownsHandle h)

/-- Structural invariant of a trace state: every live owning `Method` holds
two distinct handles, both below the fresh-handle counter. -/
def handleBound (s : MethodTraceState) : Prop :=
  ∀ m : Method, some m ∈ s.methods → m._vm.isSome = true →
    ∃ a b, m._method = some a ∧ m._variable = some b ∧ a ≠ b ∧
      a < s.nextHandle ∧ b < s.nextHandle

/-- Conservation invariant: every handle id below the fresh-handle counter
is owned by exactly one live `Method` or has been released exactly once, and
ids never handed out are neither owned nor released. -/
def handleConserved (s : MethodTraceState) : Prop :=
  ∀ hId : Nat, ownerCount s hId + s.released.count hId
    = if hId < s.nextHandle then 1 else 0

/-! ## Concrete fixtures used by witness theorems -/

/-- A two-file file system for the loader witnesses. -/
def witnessFS : FileSystem :=
  fun p => if p = "main.wren" then some "System.print(1)" else none

/-- A script interpreter stub that reports a compile error for every
source. -/
def witnessInterp : String → String → WrenInterpretResult :=
  fun _ _ => .compileError

/-- A `wrenCall` behaviour that succeeds and leaves `true` in slot 0. -/
def witnessCallFn : CallVM → Nat → WrenInterpretResult × CallVM :=
  fun vm _ => (.success, { vm with slots := setSlot vm.slots 0 (.boolV true) })

/-- A `wrenCall` behaviour that reports a runtime error. -/
def witnessCallFnFail : CallVM → Nat → WrenInterpretResult × CallVM :=
  fun vm _ => (.runtimeError, vm)

/-- A VM whose slots all hold null. -/
def emptyCallVM : CallVM := ⟨fun _ => .nullV, 0⟩

/-- A `Method` trace: construct, move-construct from it, then destroy the
moved-from source and the new owner. -/
def witnessMethodOps : List MethodOp :=
  [.create 0, .moveCreate 0, .destroy 0, .destroy 1]

/-- A `Method` trace in which a move assignment overwrites an owning
`Method`: two `Method`s are constructed, the second is move-assigned onto
the first, and both are destroyed. -/
def leakMethodOps : List MethodOp :=
  [.create 0, .create 0, .moveAssign 0 1, .destroy 0, .destroy 1]

/-! # Helper lemmas -/

lemma lookup_append_of_none {A : Type} (l1 l2 : List (Nat × A)) (k : Nat)
    (h : l1.lookup k = none) : (l1 ++ l2).lookup k = l2.lookup k := by
  induction l1 with
  | nil => rfl
  | cons a l ih =>
    obtain ⟨k', v⟩ := a
    by_cases hk : k = k'
    · subst hk
      simp [List.lookup] at h
    · have hkk : (k == k') = false := by simp [hk]
      simp only [List.cons_append, List.lookup, hkk] at h ⊢
      exact ih h

lemma lookup_append_singleton_ne {A : Type} (l : List (Nat × A)) (k k' : Nat)
    (v : A) (hne : k' ≠ k) : (l ++ [(k, v)]).lookup k' = l.lookup k' := by
  induction l with
  | nil =>
    have hkk : (k' == k) = false := by simp [hne]
    simp [List.lookup, hkk]
  | cons a l ih =>
    obtain ⟨ka, va⟩ := a
    by_cases hk : k' = ka
    · subst hk
      simp [List.lookup]
    · have hkk : (k' == ka) = false := by simp [hk]
      simp only [List.cons_append, List.lookup, hkk]
      exact ih

lemma lookup_singleton_self {A : Type} (k : Nat) (v : A) :
    ([(k, v)] : List (Nat × A)).lookup k = some v := by
  simp [List.lookup]

lemma countP_set_add {α : Type} (p : α → Bool) (l : List α) (i : Nat) (x y : α)
    (hy : l[i]? = some y) :
    (l.set i x).countP p + (if p y then 1 else 0) =
      l.countP p + (if p x then 1 else 0) := by
  induction l generalizing i with
  | nil => simp at hy
  | cons a l ih =>
    cases i with
    | zero =>
      simp only [List.getElem?_cons_zero, Option.some.injEq] at hy
      subst hy
      simp only [List.set, List.countP_cons]
      omega
    | succ n =>
      simp only [List.getElem?_cons_succ] at hy
      simp only [List.set, List.countP_cons]
      have := ih n hy
      omega

/-! # Claim theorems -/

/-- C1: reclaiming (finalizing) a foreign slot that holds an Owned wrapper
`ForeignObjectValue<T>` invokes the destructor of `T` exactly once (on the
embedded object, and no other destructor runs), while reclaiming a slot that
holds a Borrowed wrapper `ForeignObjectPtr<T>` invokes no native destructor
at all — for every wrapped type id and every constructed wrapper. -/
theorem claim_c1_finalize_destructor_counts (tid dataAddr object : Nat) :
    (finalize (ForeignObject.value tid dataAddr)).count ⟨tid, dataAddr⟩ = 1 ∧
    (finalize (ForeignObject.value tid dataAddr)).length = 1 ∧
    finalize (ForeignObject.ptr tid object) = [] := by
  refine ⟨?_, rfl, rfl⟩
  simp [finalize, ForeignObject.dtor]

/-- C2 counterexample: a slot holding a wrapper whose `typeId()` is 0, read
with statically expected TypeId 1.  The checked `WrenSlotAPI` read
fails fast (`none`), but the public helper `getSlotForeign` returns the
object pointer with no verification — refuting the claim that every
foreign-slot read, `getSlotForeign<T>` included, verifies the TypeId and
treats a mismatch as fatal. -/
theorem claim_c2_counterexample :
    (ForeignObject.ptr 0 7).typeIdOf ≠ 1 ∧
    WrenSlotAPI.getForeign 1
      (setSlot (fun _ => SlotValue.nullV) 0 (.foreignV (.ptr 0 7))) 0 = none ∧
    getSlotForeign (setSlot (fun _ => SlotValue.nullV) 0 (.foreignV (.ptr 0 7))) 0
      = some 7 := by
  refine ⟨by decide, rfl, rfl⟩

/-- C2 (amended): the `WrenSlotAPI<T>::get` shapes (by value, `T&`,
`const T&`, `T*`, `const T*`) verify that the stored wrapper's `typeId()`
equals the statically expected TypeId and fail fast on a mismatch, but the
public helper `getSlotForeign<T>` performs no such check and returns the
object pointer unconditionally. -/
theorem claim_c2_get_typecheck (expected i : Nat) (slots : Slots)
    (obj : ForeignObject) (hobj : wrenGetSlotForeign slots i = some obj) :
    (obj.typeIdOf ≠ expected → WrenSlotAPI.getForeign expected slots i = none) ∧
    (obj.typeIdOf = expected →
      WrenSlotAPI.getForeign expected slots i = some obj.objectPtr) ∧
    getSlotForeign slots i = some obj.objectPtr := by
  refine ⟨fun hne => ?_, fun heq => ?_, ?_⟩
  · simp [WrenSlotAPI.getForeign, hobj, hne]
  · simp [WrenSlotAPI.getForeign, hobj, heq]
  · simp [getSlotForeign, hobj]

/-- C2 witness: the amended theorem applied at a matching read. -/
theorem claim_c2_witness :
    WrenSlotAPI.getForeign 3
      (setSlot (fun _ => SlotValue.nullV) 0 (.foreignV (.ptr 3 7))) 0 = some 7 ∧
    getSlotForeign (setSlot (fun _ => SlotValue.nullV) 0 (.foreignV (.ptr 3 7))) 0
      = some 7 :=
  ⟨(claim_c2_get_typecheck 3 0
      (setSlot (fun _ => SlotValue.nullV) 0 (.foreignV (.ptr 3 7)))
      (.ptr 3 7) rfl).2.1 rfl,
   (claim_c2_get_typecheck 3 0
      (setSlot (fun _ => SlotValue.nullV) 0 (.foreignV (.ptr 3 7)))
      (.ptr 3 7) rfl).2.2⟩

lemma getTypeIdImpl_fresh (k : Nat) (s : TypeIdState)
    (h : s.assigned.lookup k = none) :
    getTypeIdImpl k s = (s.counter, ⟨s.counter + 1, s.assigned ++ [(k, s.counter)]⟩) := by
  simp [getTypeIdImpl, h]

lemma getTypeIdImpl_cached (k : Nat) (s : TypeIdState) (id : Nat)
    (h : s.assigned.lookup k = some id) : getTypeIdImpl k s = (id, s) := by
  simp [getTypeIdImpl, h]

lemma registerTypes_spec (ks : List Nat) (s : TypeIdState)
    (hfresh : ∀ k ∈ ks, s.assigned.lookup k = none) (hnd : ks.Nodup) :
    (registerTypes ks s).fst = List.range' s.counter ks.length ∧
    (registerTypes ks s).snd.counter = s.counter + ks.length ∧
    (∀ k, k ∉ ks →
      (registerTypes ks s).snd.assigned.lookup k = s.assigned.lookup k) ∧
    (∀ i, (hi : i < ks.length) →
      (registerTypes ks s).snd.assigned.lookup (ks.get ⟨i, hi⟩)
        = some (s.counter + i)) := by
  induction ks generalizing s with
  | nil => simp [registerTypes, List.range']
  | cons k ks ih =>
    have hk : s.assigned.lookup k = none := hfresh k (by simp)
    have hstep := getTypeIdImpl_fresh k s hk
    have hheadnotmem : k ∉ ks := (List.nodup_cons.mp hnd).1
    have hfresh1 : ∀ k' ∈ ks,
        (s.assigned ++ [(k, s.counter)]).lookup k' = none := by
      intro k' hk'
      have hne : k' ≠ k := fun he => hheadnotmem (he ▸ hk')
      have hkk : (k' == k) = false := by simp [hne]
      rw [lookup_append_of_none _ _ _ (hfresh k' (List.mem_cons_of_mem _ hk'))]
      simp [List.lookup, hkk]
    obtain ⟨hids, hcount, hpres, hrank⟩ :=
      ih ⟨s.counter + 1, s.assigned ++ [(k, s.counter)]⟩ hfresh1
        (List.nodup_cons.mp hnd).2
    have hlookupk :
        (s.assigned ++ [(k, s.counter)]).lookup k = some s.counter := by
      rw [lookup_append_of_none _ _ _ hk]
      exact lookup_singleton_self k s.counter
    refine ⟨?_, ?_, ?_, ?_⟩
    · simp only [registerTypes, hstep]
      simp only [List.length_cons, List.range'_succ]
      rw [hids]
    · simp only [registerTypes, hstep]
      rw [hcount]
      simp only [List.length_cons]
      omega
    · intro k' hk'
      have hne : k' ≠ k := fun he => hk' (he ▸ List.mem_cons_self k ks)
      have hnotmem : k' ∉ ks := fun hm => hk' (List.mem_cons_of_mem _ hm)
      simp only [registerTypes, hstep]
      rw [hpres k' hnotmem]
      exact lookup_append_singleton_ne s.assigned k k' s.counter hne
    · intro i hi
      cases i with
      | zero =>
        simp only [registerTypes, hstep, List.get]
        rw [hpres k hheadnotmem, hlookupk]
        simp
      | succ n =>
        have hn : n < ks.length := Nat.lt_of_succ_lt_succ hi
        simp only [registerTypes, hstep, List.get]
        rw [hrank n hn]
        simp only [Option.some.injEq]
        omega

/-- C3: registering distinct native types in order through `getTypeId`
yields ids equal to each type's first-use rank — `List.range n`, i.e. 0-based,
distinct, monotonically increasing and dense; a repeated call for an already
registered type returns the same id and leaves the registry unchanged; and
`getTypeId` is invariant under reference and const qualification, since it
acts on the `std::decay`ed type. -/
theorem claim_c3_typeid_ranks (ks : List Nat) (hnd : ks.Nodup) (k : Nat)
    (s : TypeIdState) (t : CppType) :
    (registerTypes ks initTypeIdState).fst = List.range ks.length ∧
    getTypeIdImpl k (getTypeIdImpl k s).snd = getTypeIdImpl k s ∧
    getTypeId (.lref t) s = getTypeId t s ∧
    getTypeId (.rref t) s = getTypeId t s ∧
    getTypeId (.constq t) s = getTypeId t s := by
  refine ⟨?_, ?_, rfl, rfl, rfl⟩
  · have h := (registerTypes_spec ks initTypeIdState (fun _ _ => rfl) hnd).1
    rw [h, List.range_eq_range']
    rfl
  · rcases hc : s.assigned.lookup k with _ | id
    · have hcached : (s.assigned ++ [(k, s.counter)]).lookup k = some s.counter := by
        rw [lookup_append_of_none _ _ _ hc]
        exact lookup_singleton_self k s.counter
      rw [getTypeIdImpl_fresh k s hc]
      exact getTypeIdImpl_cached k _ s.counter hcached
    · rw [getTypeIdImpl_cached k s id hc]
      exact getTypeIdImpl_cached k s id hc

/-- C3 witness: three distinct types get ids 0, 1, 2, and re-asking for the
first returns the same id with no state change. -/
theorem claim_c3_witness :
    (registerTypes [5, 9, 2] initTypeIdState).fst = [0, 1, 2] ∧
    getTypeIdImpl 5 (getTypeIdImpl 5 initTypeIdState).snd
      = getTypeIdImpl 5 initTypeIdState := by
  have h := claim_c3_typeid_ranks [5, 9, 2] (by decide) 5 initTypeIdState (.base 0)
  exact ⟨by rw [h.1]; rfl, h.2.1⟩

/-- C4 counterexample: two method registrations whose qualified strings —
`module ++ class ++ signature (++ "s")` — coincide (`"ab"+"c"` vs
`"a"+"bc"`), hence whose hashes coincide for any hash function (here
`String.length` stands in for `std::hash<std::string>`).  The maps use
`std::unordered_map::insert`, which keeps the existing entry, so the lookup
resolves to the adapter registered FIRST (id 1), not the one registered last
(id 2) — refuting the claim that the later registration overwrites. -/
theorem claim_c4_counterexample :
    hashMethodSignature String.length "ab" "c" false "m()"
      = hashMethodSignature String.length "a" "bc" false "m()" ∧
    foreignMethodProvider String.length
      (registerFunction String.length
        (registerFunction String.length BoundState.empty "ab" "c" false "m()" 1)
        "a" "bc" false "m()" 2)
      "a" "bc" false "m()" = some 1 ∧
    some 1 ≠ some 2 := by
  refine ⟨by decide, by decide, by decide⟩

/-- C4 (amended): when two method registrations (or two class
registrations) in the same dispatch registry compute the same integer hash,
the later registration is silently dropped (`std::unordered_map::insert`
keeps the existing entry), so a subsequent lookup with that hash resolves to
the adapter registered first. -/
theorem claim_c4_collision_first_wins (hash : String → Nat) (bs : BoundState)
    (m1 c1 sg1 m2 c2 sg2 : String) (st1 st2 : Bool) (f1 f2 : Nat)
    (mc1 cc1 mc2 cc2 : String) (cm1 cm2 : ClassMethods)
    (hcol : hashMethodSignature hash m1 c1 st1 sg1
      = hashMethodSignature hash m2 c2 st2 sg2)
    (hfresh : bs.methods.lookup (hashMethodSignature hash m1 c1 st1 sg1) = none)
    (hcolC : hashClassSignature hash mc1 cc1 = hashClassSignature hash mc2 cc2)
    (hfreshC : bs.classes.lookup (hashClassSignature hash mc1 cc1) = none) :
    foreignMethodProvider hash
      (registerFunction hash (registerFunction hash bs m1 c1 st1 sg1 f1)
        m2 c2 st2 sg2 f2)
      m2 c2 st2 sg2 = some f1 ∧
    foreignClassProvider hash
      (registerClass hash (registerClass hash bs mc1 cc1 cm1) mc2 cc2 cm2)
      mc2 cc2 = some cm1 := by
  constructor
  · simp only [foreignMethodProvider, registerFunction, ← hcol, mapInsert, hfresh,
      Option.isSome_none, Bool.false_eq_true, if_false, List.lookup_cons_self,
      Option.isSome_some, if_true]
  · simp only [foreignClassProvider, registerClass, ← hcolC, mapInsert, hfreshC,
      Option.isSome_none, Bool.false_eq_true, if_false, List.lookup_cons_self,
      Option.isSome_some, if_true]

/-- C4 witness: the amended theorem applied to the concrete collision of the
counterexample plus a class collision (`"x"+"yz"` vs `"xy"+"z"`). -/
theorem claim_c4_witness :
    foreignMethodProvider String.length
      (registerFunction String.length
        (registerFunction String.length BoundState.empty "ab" "c" false "m()" 1)
        "a" "bc" false "m()" 2)
      "a" "bc" false "m()" = some 1 ∧
    foreignClassProvider String.length
      (registerClass String.length
        (registerClass String.length BoundState.empty "x" "yz" ⟨10, 20⟩)
        "xy" "z" ⟨30, 40⟩)
      "xy" "z" = some ⟨10, 20⟩ :=
  claim_c4_collision_first_wins String.length BoundState.empty
    "ab" "c" "m()" "a" "bc" "m()" false false 1 2
    "x" "yz" "xy" "z" ⟨10, 20⟩ ⟨30, 40⟩
    (by decide) (by decide) (by decide) (by decide)

/-- C5: the claim that copying a string-tagged `Value` duplicates the string
is wrong in the code — `Value(const Value&) = default` copies the owning
`_string` pointer field-wise while `~Value` frees it, so destroying a
string `Value` and its copy frees the SAME heap block twice (a double free),
not two independent blocks.  Evaluated at the failing input `Value("a")`
copied once and both destroyed: the copy aliases block 1, the first
destruction frees it validly, the second destruction's free finds no live
allocation (the `false` flag = undefined behaviour). -/
theorem claim_c5_shallow_copy_double_free :
    (Value.ofString Heap.empty "a").1.str = some 1 ∧
    (Value.copy (Value.ofString Heap.empty "a").1).str = some 1 ∧
    ((Value.ofString Heap.empty "a").1.dtor (Value.ofString Heap.empty "a").2).2
      = true ∧
    ((Value.copy (Value.ofString Heap.empty "a").1).dtor
      ((Value.ofString Heap.empty "a").1.dtor (Value.ofString Heap.empty "a").2).1).2
      = false := by
  refine ⟨rfl, rfl, by decide, by decide⟩

lemma doubleToInt_intCast (v : Int) : doubleToInt (v : ℚ) = v := by
  simp [doubleToInt, Rat.num_intCast, Rat.den_intCast]

/-- C8: writing a primitive value through its `WrenSlotAPI` specialisation
and reading it back through the same specialisation yields the value again —
exactly for bool, strings and handles; exactly for the numeric types under
the rational model of the double slot, which is faithful for `float`,
`double`, 32-bit `int` and `unsigned` always, and for 64-bit `long`/`size_t`
whenever the value is exactly representable in a double (magnitude at most
`2^53`), the hypothesis the last two conjuncts carry. -/
theorem claim_c8_slot_roundtrip (slots : Slots) (i : Nat) (b : Bool)
    (s : String) (hd : Nat) (q qf : ℚ) (vi : Int) (nu : Nat) (vl : Int) (nsz : Nat) :
    WrenSlotAPI.getBool (WrenSlotAPI.setBool slots i b) i = some b ∧
    WrenSlotAPI.getString (WrenSlotAPI.setString slots i s) i = some s ∧
    WrenSlotAPI.getHandle (WrenSlotAPI.setHandle slots i hd) i = some hd ∧
    WrenSlotAPI.getDouble (WrenSlotAPI.setDouble slots i q) i = some q ∧
    WrenSlotAPI.getFloat (WrenSlotAPI.setFloat slots i qf) i = some qf ∧
    WrenSlotAPI.getInt (WrenSlotAPI.setInt slots i vi) i = some vi ∧
    WrenSlotAPI.getUnsigned (WrenSlotAPI.setUnsigned slots i nu) i = some nu ∧
    (vl.natAbs ≤ 2 ^ 53 →
      WrenSlotAPI.getLong (WrenSlotAPI.setLong slots i vl) i = some vl) ∧
    (nsz ≤ 2 ^ 53 →
      WrenSlotAPI.getLong (WrenSlotAPI.setLong slots i (nsz : Int)) i
        = some (nsz : Int)) := by
  refine ⟨?_, ?_, ?_, ?_, ?_, ?_, ?_, fun _ => ?_, fun _ => ?_⟩ <;>
    simp [WrenSlotAPI.getBool, WrenSlotAPI.setBool, WrenSlotAPI.getString,
      WrenSlotAPI.setString, WrenSlotAPI.getHandle, WrenSlotAPI.setHandle,
      WrenSlotAPI.getDouble, WrenSlotAPI.setDouble, WrenSlotAPI.getFloat,
      WrenSlotAPI.setFloat, WrenSlotAPI.getInt, WrenSlotAPI.setInt,
      WrenSlotAPI.getUnsigned, WrenSlotAPI.setUnsigned, WrenSlotAPI.getLong,
      WrenSlotAPI.setLong, wrenGetSlotBool, wrenGetSlotString, wrenGetSlotHandle,
      wrenGetSlotDouble, setSlot, doubleToInt_intCast, doubleToInt,
      Rat.num_natCast, Rat.den_natCast, Int.tdiv_one]

/-- C8 witness: the round-trip theorem at concrete values, discharging the
exact-representability hypotheses at `3` and `4`. -/
theorem claim_c8_witness :
    WrenSlotAPI.getBool (WrenSlotAPI.setBool (fun _ => .nullV) 0 true) 0
      = some true ∧
    WrenSlotAPI.getLong (WrenSlotAPI.setLong (fun _ => .nullV) 0 3) 0 = some 3 ∧
    WrenSlotAPI.getLong (WrenSlotAPI.setLong (fun _ => .nullV) 0 ((4 : Nat) : Int)) 0
      = some ((4 : Nat) : Int) := by
  have h := claim_c8_slot_roundtrip (fun _ => .nullV) 0 true "a" 1 1 1 3 2 3 4
  exact ⟨h.1, h.2.2.2.2.2.2.2.1 (by norm_num), h.2.2.2.2.2.2.2.2 (by norm_num)⟩

/-- C9: the default module loader appends the fixed `".wren"` extension to
the module name and returns that file's full contents as the source text;
when the file does not exist it returns the null "no source" buffer; and in
every case its body resolves to a normal return — no exception propagates to
the caller. -/
theorem claim_c9_default_loader (fs : FileSystem) (mod : String) :
    (∃ r, loadModuleBody fs mod = .ok r) ∧
    (fs (mod ++ ".wren") = none → loadModuleFn fs mod = none) ∧
    (∀ src, fs (mod ++ ".wren") = some src → loadModuleFn fs mod = some src) := by
  refine ⟨?_, fun h => ?_, fun src h => ?_⟩
  · rcases hft : fileToString fs (mod ++ ".wren") with e | src
    · exact ⟨none, by simp [loadModuleBody, hft]⟩
    · exact ⟨some src, by simp [loadModuleBody, hft]⟩
  · simp [loadModuleFn, loadModuleBody, fileToString, fileExists, h]
  · simp [loadModuleFn, loadModuleBody, fileToString, fileExists, h]

/-- C9 witness: the loader theorem applied to a concrete file system — the
present module is read, the missing one yields the null buffer. -/
theorem claim_c9_witness :
    loadModuleFn witnessFS "missing" = none ∧
    loadModuleFn witnessFS "main" = some "System.print(1)" :=
  ⟨(claim_c9_default_loader witnessFS "missing").2.1 (by decide),
   (claim_c9_default_loader witnessFS "main").2.2 "System.print(1)" (by decide)⟩

/-- C10: `VM::executeModule` silently assumes the loader returned a non-null
buffer.  When `loadModuleFn` returns the null "no source" sentinel (missing
module file), `std::string source(loadModuleFn(...))` constructs from a null
`char*` — undefined behaviour, modelled as the `none` outcome — so the
missing-module case never reaches the Success/CompileError/RuntimeError
mapping; when the loader returns a buffer, the result is exactly that
mapping of `wrenInterpret`. -/
theorem claim_c10_executemodule_null_source
    (interp : String → String → WrenInterpretResult) (fs : FileSystem)
    (mod : String) :
    (loadModuleFn fs mod = none → executeModule interp fs mod = none) ∧
    (∀ src, loadModuleFn fs mod = some src →
      executeModule interp fs mod
        = some (interpretResultToResult (interp mod src))) := by
  refine ⟨fun h => ?_, fun src h => ?_⟩
  · simp [executeModule, h]
  · simp [executeModule, h]

/-- C10 witness: with a missing module the result is the undefined-behaviour
marker, never one of the three results; with a present module the
interpreter's outcome is mapped. -/
theorem claim_c10_witness :
    executeModule witnessInterp witnessFS "missing" = none ∧
    executeModule witnessInterp witnessFS "main" = some Result.compileError :=
  ⟨(claim_c10_executemodule_null_source witnessInterp witnessFS "missing").1
      (by decide),
   (claim_c10_executemodule_null_source witnessInterp witnessFS "main").2
      "System.print(1)" (by decide)⟩

lemma passArgsFrom_stable (args : List MarshalArg) (slots : Slots)
    (first j : Nat) (hj : j < first) : passArgsFrom slots first args j = slots j := by
  induction args generalizing slots first with
  | nil => rfl
  | cons a rest ih =>
    rw [passArgsFrom, ih _ _ (Nat.lt_succ_of_lt hj)]
    simp only [setSlot]
    rw [if_neg (Nat.ne_of_lt hj)]

lemma passArgsFrom_get (args : List MarshalArg) (slots : Slots)
    (first i : Nat) (hi : i < args.length) :
    passArgsFrom slots first args (first + i) = encodeArg (args.get ⟨i, hi⟩) := by
  induction args generalizing slots first i with
  | nil => simp at hi
  | cons a rest ih =>
    cases i with
    | zero =>
      rw [passArgsFrom, passArgsFrom_stable rest _ (first + 1) (first + 0) (by omega)]
      simp [setSlot]
    | succ n =>
      have harith : first + (n + 1) = (first + 1) + n := by omega
      rw [passArgsFrom, harith, ih _ _ n (Nat.lt_of_succ_lt_succ hi)]
      rfl

/-- C7: invoking a `Method` with `k` arguments ensures `k + 1` slots, places
the bound receiver handle in slot 0, marshals argument `i` into slot
`i + 1`, and invokes the call handle; whatever the external `wrenCall`
returns, on success the returned `Value`'s tag equals the runtime-reported
type of slot 0 whenever that type is bool, number, string or foreign, and on
any non-success interpretation result the null `Value` is returned. -/
theorem claim_c7_method_invoke
    (callFn : CallVM → Nat → WrenInterpretResult × CallVM)
    (variableH methodH : Nat) (args : List MarshalArg) (vm : CallVM) (h : Heap) :
    (methodPreCall variableH args vm).ensuredSlots ≥ args.length + 1 ∧
    (methodPreCall variableH args vm).slots 0 = SlotValue.handleV variableH ∧
    (∀ i, (hi : i < args.length) →
      (methodPreCall variableH args vm).slots (i + 1)
        = encodeArg (args.get ⟨i, hi⟩)) ∧
    (∀ res vm3, callFn (methodPreCall variableH args vm) methodH = (res, vm3) →
      (res ≠ .success →
        (methodInvoke callFn variableH methodH args vm h).1 = Value.nullValue) ∧
      (res = .success →
        (wrenGetSlotType (vm3.slots 0) = .boolT →
          (methodInvoke callFn variableH methodH args vm h).1.type = .boolT) ∧
        (wrenGetSlotType (vm3.slots 0) = .numT →
          (methodInvoke callFn variableH methodH args vm h).1.type = .numT) ∧
        (wrenGetSlotType (vm3.slots 0) = .stringT →
          (methodInvoke callFn variableH methodH args vm h).1.type = .stringT) ∧
        (wrenGetSlotType (vm3.slots 0) = .foreignT →
          (methodInvoke callFn variableH methodH args vm h).1.type = .foreignT))) := by
  refine ⟨Nat.le_max_right _ _, ?_, fun i hi => ?_, fun res vm3 hcall => ?_⟩
  · show passArgumentsToWren (setSlot vm.slots 0 (.handleV variableH)) args 0
      = SlotValue.handleV variableH
    rw [passArgumentsToWren, passArgsFrom_stable args _ 1 0 Nat.one_pos]
    simp [setSlot]
  · show passArgumentsToWren (setSlot vm.slots 0 (.handleV variableH)) args (i + 1)
      = encodeArg (args.get ⟨i, hi⟩)
    rw [passArgumentsToWren, Nat.add_comm i 1]
    exact passArgsFrom_get args _ 1 i hi
  · constructor
    · intro hres
      simp only [methodInvoke, hcall]
      rw [if_neg hres]
    · rintro rfl
      refine ⟨fun ht => ?_, fun ht => ?_, fun ht => ?_, fun ht => ?_⟩ <;>
        · simp only [methodInvoke, hcall, if_pos rfl]
          cases hv : vm3.slots 0 <;>
            simp [wrenGetSlotType, hv, Value.ofBool, Value.ofDouble,
              Value.ofString, Value.ofForeign, reallocAlloc] at ht ⊢

/-- C7 witness: the invocation theorem applied to a succeeding `wrenCall`
that leaves a bool in slot 0 and to a failing one. -/
theorem claim_c7_witness :
    (methodInvoke witnessCallFn 5 6 [.numA 2] emptyCallVM Heap.empty).1.type
      = WrenType.boolT ∧
    (methodInvoke witnessCallFnFail 5 6 [] emptyCallVM Heap.empty).1
      = Value.nullValue := by
  constructor
  · exact (((claim_c7_method_invoke witnessCallFn 5 6 [.numA 2] emptyCallVM
      Heap.empty).2.2.2 WrenInterpretResult.success
        (witnessCallFn (methodPreCall 5 [.numA 2] emptyCallVM) 6).2 rfl).2 rfl).1 rfl
  · exact ((claim_c7_method_invoke witnessCallFnFail 5 6 [] emptyCallVM
      Heap.empty).2.2.2 WrenInterpretResult.runtimeError
        (witnessCallFnFail (methodPreCall 5 [] emptyCallVM) 6).2 rfl).1 (by decide)

lemma ownsHandle_none_vm (hId : Nat) (m : Method) (hm : m._vm = none) :
    ownsHandle hId (some m) = false := by
  simp [ownsHandle, hm]

lemma ownsHandle_mk3_iff (hId vm a b : Nat) :
    ownsHandle hId (some (Method.mk3 vm a b)) = true ↔ hId = a ∨ hId = b := by
  simp only [ownsHandle, Method.mk3, Option.isSome_some, Bool.true_and,
    Bool.or_eq_true, beq_iff_eq, Option.some.injEq]
  constructor
  · rintro (h | h)
    exacts [Or.inl h.symm, Or.inr h.symm]
  · rintro (h | h)
    exacts [Or.inl h.symm, Or.inr h.symm]

lemma moveCtor_eta (m : Method) :
    Method.moveCtor m = (m, ⟨none, none, none⟩) := rfl

lemma moveAssign_eta (d r : Method) :
    Method.moveAssign d r false = (r, ⟨none, none, none⟩) := rfl

lemma inv_create (s : MethodTraceState) (vmId : Nat)
    (hb : handleBound s) (hc : handleConserved s) :
    handleBound (execMethodOp s (.create vmId)) ∧
    handleConserved (execMethodOp s (.create vmId)) := by
  constructor
  · intro m hm hvm
    simp only [execMethodOp] at hm ⊢
    rcases List.mem_append.mp hm with hmem | hmem
    · obtain ⟨a, b, h1, h2, h3, h4, h5⟩ := hb m hmem hvm
      exact ⟨a, b, h1, h2, h3, by omega, by omega⟩
    · simp only [List.mem_singleton, Option.some.injEq] at hmem
      subst hmem
      exact ⟨s.nextHandle, s.nextHandle + 1, rfl, rfl, by omega, by omega, by omega⟩
  · intro hId
    have hold := hc hId
    simp only [execMethodOp, handleConserved, ownerCount, List.countP_append,
      List.countP_cons, List.countP_nil] at hold ⊢
    by_cases h1 : hId = s.nextHandle ∨ hId = s.nextHandle + 1
    · rw [if_pos ((ownsHandle_mk3_iff hId vmId s.nextHandle (s.nextHandle + 1)).mpr h1)]
      rw [if_neg (by omega : ¬ hId < s.nextHandle)] at hold
      rw [if_pos (by omega : hId < s.nextHandle + 2)]
      omega
    · have hne1 : hId ≠ s.nextHandle := fun h => h1 (Or.inl h)
      have hne2 : hId ≠ s.nextHandle + 1 := fun h => h1 (Or.inr h)
      rw [if_neg (fun hh =>
        h1 ((ownsHandle_mk3_iff hId vmId s.nextHandle (s.nextHandle + 1)).mp hh))]
      by_cases h3 : hId < s.nextHandle
      · rw [if_pos h3] at hold
        rw [if_pos (by omega)]
        omega
      · rw [if_neg h3] at hold
        rw [if_neg (by omega)]
        omega

lemma inv_moveCreate (s : MethodTraceState) (src : Nat)
    (hb : handleBound s) (hc : handleConserved s) :
    handleBound (execMethodOp s (.moveCreate src)) ∧
    handleConserved (execMethodOp s (.moveCreate src)) := by
  rcases hq : s.methods[src]? with _ | om
  · simp only [execMethodOp, hq]
    exact ⟨hb, hc⟩
  rcases om with _ | m
  · simp only [execMethodOp, hq]
    exact ⟨hb, hc⟩
  have hmem : some m ∈ s.methods := List.getElem?_mem hq
  constructor
  · intro m' hm' hvm'
    simp only [execMethodOp, hq, moveCtor_eta] at hm' ⊢
    rcases List.mem_append.mp hm' with hmem' | hmem'
    · rcases List.mem_or_eq_of_mem_set hmem' with hmem' | hmem'
      · obtain ⟨a, b, h1, h2, h3, h4, h5⟩ := hb m' hmem' hvm'
        exact ⟨a, b, h1, h2, h3, h4, h5⟩
      · simp only [Option.some.injEq] at hmem'
        subst hmem'
        simp at hvm'
    · simp only [List.mem_singleton, Option.some.injEq] at hmem'
      rw [hmem'] at hvm' ⊢
      exact hb m hmem hvm'
  · intro hId
    have hold := hc hId
    have heq := countP_set_add (ownsHandle hId) s.methods src
      (some ⟨none, none, none⟩) (some m) hq
    rw [ownsHandle_none_vm hId ⟨none, none, none⟩ rfl] at heq
    simp only [Bool.false_eq_true, if_false] at heq
    simp only [execMethodOp, hq, moveCtor_eta, handleConserved, ownerCount,
      List.countP_append, List.countP_cons, List.countP_nil] at hold ⊢
    omega

lemma inv_moveAssign (s : MethodTraceState) (dst src : Nat)
    (hb : handleBound s) (hc : handleConserved s)
    (hg : goodOpB s (.moveAssign dst src) = true) :
    handleBound (execMethodOp s (.moveAssign dst src)) ∧
    handleConserved (execMethodOp s (.moveAssign dst src)) := by
  by_cases hds : dst = src
  · simp only [execMethodOp, if_pos hds]
    exact ⟨hb, hc⟩
  rcases hdq : s.methods[dst]? with _ | od
  · simp only [execMethodOp, if_neg hds, hdq]
    exact ⟨hb, hc⟩
  rcases hsq : s.methods[src]? with _ | os
  · simp only [execMethodOp, if_neg hds, hdq, hsq]
    cases od <;> exact ⟨hb, hc⟩
  rcases od with _ | d
  · simp only [execMethodOp, if_neg hds, hdq, hsq]
    exact ⟨hb, hc⟩
  rcases os with _ | r
  · simp only [execMethodOp, if_neg hds, hdq, hsq]
    exact ⟨hb, hc⟩
  have hdvm : d._vm = none := by
    simp only [goodOpB, List.getD_eq_getElem?_getD, hdq, Option.getD_some,
      notOwning] at hg
    rcases Bool.or_eq_true_iff.mp hg with hg' | hg'
    · exact absurd (eq_of_beq hg') hds
    · exact Option.isNone_iff_eq_none.mp hg'
  have hmemr : some r ∈ s.methods := List.getElem?_mem hsq
  have hsq' : (s.methods.set dst (some r))[src]? = some (some r) := by
    rw [List.getElem?_set_ne hds]
    exact hsq
  constructor
  · intro m' hm' hvm'
    simp only [execMethodOp, if_neg hds, hdq, hsq, moveAssign_eta] at hm' ⊢
    rcases List.mem_or_eq_of_mem_set hm' with hm2 | hm2
    · rcases List.mem_or_eq_of_mem_set hm2 with hm3 | hm3
      · exact hb m' hm3 hvm'
      · simp only [Option.some.injEq] at hm3
        rw [hm3] at hvm' ⊢
        exact hb r hmemr hvm'
    · simp only [Option.some.injEq] at hm2
      subst hm2
      simp at hvm'
  · intro hId
    have hold := hc hId
    have heq1 := countP_set_add (ownsHandle hId) s.methods dst
      (some r) (some d) hdq
    have heq2 := countP_set_add (ownsHandle hId) (s.methods.set dst (some r)) src
      (some ⟨none, none, none⟩) (some r) hsq'
    rw [ownsHandle_none_vm hId d hdvm] at heq1
    rw [ownsHandle_none_vm hId ⟨none, none, none⟩ rfl] at heq2
    simp only [Bool.false_eq_true, if_false] at heq1 heq2
    simp only [execMethodOp, if_neg hds, hdq, hsq, moveAssign_eta,
      handleConserved, ownerCount] at hold ⊢
    omega

lemma inv_destroy (s : MethodTraceState) (idx : Nat)
    (hb : handleBound s) (hc : handleConserved s) :
    handleBound (execMethodOp s (.destroy idx)) ∧
    handleConserved (execMethodOp s (.destroy idx)) := by
  rcases hq : s.methods[idx]? with _ | om
  · simp only [execMethodOp, hq]
    exact ⟨hb, hc⟩
  rcases om with _ | m
  · simp only [execMethodOp, hq]
    exact ⟨hb, hc⟩
  have hmem : some m ∈ s.methods := List.getElem?_mem hq
  have hbound : handleBound (execMethodOp s (.destroy idx)) := by
    intro m' hm' hvm'
    simp only [execMethodOp, hq] at hm' ⊢
    rcases List.mem_or_eq_of_mem_set hm' with hm2 | hm2
    · exact hb m' hm2 hvm'
    · simp at hm2
  refine ⟨hbound, ?_⟩
  intro hId
  have hold := hc hId
  have heq := countP_set_add (ownsHandle hId) s.methods idx none (some m) hq
  have hnone : ownsHandle hId (none : Option Method) = false := rfl
  rw [hnone] at heq
  simp only [Bool.false_eq_true, if_false] at heq
  rcases hvm : m._vm with _ | v
  · have hdtor : m.dtor = [] := by simp [Method.dtor, hvm]
    have howns : ownsHandle hId (some m) = false := ownsHandle_none_vm hId m hvm
    rw [howns] at heq
    simp only [Bool.false_eq_true, if_false] at heq
    simp only [execMethodOp, hq, hdtor, handleConserved, ownerCount,
      List.count_append, List.count_nil] at hold ⊢
    omega
  · obtain ⟨a, b, h1, h2, hab, hlta, hltb⟩ :=
      hb m hmem (by simp [hvm])
    have hdtor : m.dtor = [a, b] := by simp [Method.dtor, hvm, h1, h2]
    have howns : ownsHandle hId (some m) = true ↔ hId = a ∨ hId = b := by
      simp only [ownsHandle, hvm, h1, h2, Option.isSome_some, Bool.true_and,
        Bool.or_eq_true, beq_iff_eq, Option.some.injEq]
      constructor
      · rintro (h | h)
        exacts [Or.inl h.symm, Or.inr h.symm]
      · rintro (h | h)
        exacts [Or.inl h.symm, Or.inr h.symm]
    simp only [execMethodOp, hq, hdtor, handleConserved, ownerCount,
      List.count_append] at hold ⊢
    by_cases ha : hId = a
    · rw [if_pos (howns.mpr (Or.inl ha))] at heq
      have hx : (a == hId) = true := by
        rw [ha]
        exact beq_self_eq_true a
      have hy : (b == hId) = false := by
        rw [beq_eq_false_iff_ne, ha]
        exact Ne.symm hab
      have hcnt : List.count hId [a, b] = 1 := by
        simp [List.count_cons, List.count_nil, hx, hy]
      omega
    · by_cases hbid : hId = b
      · rw [if_pos (howns.mpr (Or.inr hbid))] at heq
        have hx : (a == hId) = false := by
          rw [beq_eq_false_iff_ne, hbid]
          exact hab
        have hy : (b == hId) = true := by
          rw [hbid]
          exact beq_self_eq_true b
        have hcnt : List.count hId [a, b] = 1 := by
          simp [List.count_cons, List.count_nil, hx, hy]
        omega
      · rw [if_neg (fun hh => (howns.mp hh).elim ha hbid)] at heq
        have hx : (a == hId) = false := by
          rw [beq_eq_false_iff_ne]
          exact fun he => ha he.symm
        have hy : (b == hId) = false := by
          rw [beq_eq_false_iff_ne]
          exact fun he => hbid he.symm
        have hcnt : List.count hId [a, b] = 0 := by
          simp [List.count_cons, List.count_nil, hx, hy]
        omega

lemma inv_step (s : MethodTraceState) (op : MethodOp)
    (hb : handleBound s) (hc : handleConserved s) (hg : goodOpB s op = true) :
    handleBound (execMethodOp s op) ∧ handleConserved (execMethodOp s op) := by
  cases op with
  | create vmId => exact inv_create s vmId hb hc
  | moveCreate src => exact inv_moveCreate s src hb hc
  | moveAssign dst src => exact inv_moveAssign s dst src hb hc hg
  | destroy idx => exact inv_destroy s idx hb hc

lemma inv_run (ops : List MethodOp) (s : MethodTraceState)
    (hb : handleBound s) (hc : handleConserved s)
    (hg : goodOpsB s ops = true) :
    handleBound (execMethodOps s ops) ∧ handleConserved (execMethodOps s ops) := by
  induction ops generalizing s with
  | nil => exact ⟨hb, hc⟩
  | cons op ops ih =>
    rcases Bool.and_eq_true_iff.mp hg with ⟨hg1, hg2⟩
    obtain ⟨hb', hc'⟩ := inv_step s op hb hc hg1
    exact ih (execMethodOp s op) hb' hc' hg2

/-- C6 counterexample: the trace create, create, move-assign the second
`Method` onto the first (which still owns its handles), destroy both.  Every
`Method` ends destroyed and handle 0 was created for the first `Method`, yet
it is released zero times — `Method::operator=(Method&&)` drops the
destination's handles without releasing them — refuting the claim that the
two handles of every `Method` are released exactly once. -/
theorem claim_c6_counterexample :
    (execMethodOps initMethodTraceState leakMethodOps).methods.all Option.isNone
      = true ∧
    (execMethodOps initMethodTraceState leakMethodOps).nextHandle = 4 ∧
    (execMethodOps initMethodTraceState leakMethodOps).released.count 0 = 0 ∧
    (execMethodOps initMethodTraceState leakMethodOps).released.count 1 = 0 := by
  decide

/-- C6 (amended): along any trace of constructions, move constructions, move
assignments and destructions in which no move assignment targets a `Method`
that still owns its handles, once every `Method` has been destroyed each
handle ever created has been released exactly once; and a moved-from
`Method` (source of a move construction or move assignment) owns nothing, so
destroying it performs no release action.  (When a move assignment does
overwrite an owning `Method`, that `Method`'s handles are never released —
the counterexample.) -/
theorem claim_c6_handle_release (ops : List MethodOp)
    (hg : goodOpsB initMethodTraceState ops = true)
    (hdead : (execMethodOps initMethodTraceState ops).methods.all Option.isNone
      = true) :
    (∀ hId, hId < (execMethodOps initMethodTraceState ops).nextHandle →
      (execMethodOps initMethodTraceState ops).released.count hId = 1) ∧
    (∀ m : Method, (Method.moveCtor m).2.dtor = [] ∧
      ∀ d : Method, (Method.moveAssign d m false).2.dtor = []) := by
  constructor
  · intro hId hlt
    obtain ⟨-, hc⟩ := inv_run ops initMethodTraceState
      (fun m hm _ => absurd hm (by simp [initMethodTraceState]))
      (fun h => by simp [initMethodTraceState, ownerCount]) hg
    have hzero : ownerCount (execMethodOps initMethodTraceState ops) hId = 0 := by
      rw [ownerCount, List.countP_eq_zero]
      intro om hom
      have : om.isNone = true := by
        rw [List.all_eq_true] at hdead
        exact hdead om hom
      rcases om with _ | m
      · simp [ownsHandle]
      · simp at this
    have := hc hId
    rw [hzero, if_pos hlt] at this
    omega
  · intro m
    exact ⟨rfl, fun d => rfl⟩

/-- C6 witness: the amended theorem applied to the trace create,
move-construct, destroy the moved-from source, destroy the new owner — both
handles end released exactly once. -/
theorem claim_c6_witness :
    (execMethodOps initMethodTraceState witnessMethodOps).released.count 0 = 1 ∧
    (execMethodOps initMethodTraceState witnessMethodOps).released.count 1 = 1 :=
  ⟨(claim_c6_handle_release witnessMethodOps (by decide) (by decide)).1 0 (by decide),
   (claim_c6_handle_release witnessMethodOps (by decide) (by decide)).1 1 (by decide)⟩
